import Mathlib

/-!
Verification of the Evidence Retrieval Store of the Adtargeting Assistant.

Shallow embedding of the Python sources:
  * `src/data/vector_db_connector.py` (class `VectorDB`),
  * `src/data/csv_connector.py` (class `CSVData`),
  * `src/workflow/manager.py` (`WorkflowManager._fetch_relevant_data`).

Modelling conventions:
  * Embedding vectors are `List Int` (exact arithmetic stands in for float32;
    FAISS `IndexFlatL2` is exact flat search, so only comparisons of squared
    L2 distances matter, which `Int` models faithfully for integer inputs).
  * The sentence-transformer model is an external collaborator; it is passed
    in as a function `enc : String → List Int`.
  * The file system is an explicit `Disk` record; an entry `none` means the
    file does not exist, `some none` means it exists but is corrupt (loading
    it raises), `some (some v)` means it exists and deserialises to `v`.
    `Disk.writable = false` injects an I/O failure into every write.
  * A Python method that may raise to its caller is `Except String`-valued;
    a `try/except` in the source that catches and logs becomes a branch that
    returns the unchanged state.
  * Python's `list(set(xs))` has an unspecified iteration order; we model it
    with `List.dedup`, a deterministic stand-in. No theorem below about it
    depends on the order of the deduplicated survivors.
-/

/-- Is `pre` a leading segment of `l`? (executable, used for substring tests) -/
def leadsList : List Char → List Char → Bool
  | [], _ => true
  | _ :: _, [] => false
  | a :: as, b :: bs => a == b && leadsList as bs

/-- Python's `needle in hay` substring test on strings. -/
def strContains (hay needle : String) : Bool :=
  (List.range (hay.toList.length + 1)).any
    (fun i => leadsList needle.toList (hay.toList.drop i))

/-- Python `str.lower()` on ASCII text (character-by-character, kept
kernel-reducible). -/
def lowerStr (s : String) : String :=
  (s.toList.map Char.toLower).asString

/-- Case-insensitive substring test, as in
`Series.str.contains(query, case=False)` for plain (regex-free) queries. -/
def strContainsCI (hay needle : String) : Bool :=
  strContains (lowerStr hay) (lowerStr needle)

/-- Python `str.title()` on ASCII text: an alphabetic character is uppercased
when the previous character is not alphabetic and lowercased otherwise. -/
def pyTitleAux : List Char → Bool → List Char
  | [], _ => []
  | c :: cs, prevAlpha =>
      (if c.isAlpha then (if prevAlpha then c.toLower else c.toUpper) else c)
        :: pyTitleAux cs c.isAlpha

/-- Python `str.title()`. -/
def pyTitle (s : String) : String :=
  (pyTitleAux s.toList false).asString

/-- The empty string (named so literals never directly follow an identifier). -/
def blankStr : String := ""

/-- Python list indexing `xs[i]` for `i ∈ [-len xs, len xs)`: a negative index
counts from the end.  (FAISS pads missing neighbours with index `-1`, and the
source indexes `self.texts` with the raw values, so `-1` reads the last text.) -/
def pyGet (xs : List String) (i : Int) : String :=
  if 0 ≤ i then xs.getD i.toNat blankStr
  else xs.getD (xs.length - (-i).toNat) blankStr

/-! ## FAISS `IndexFlatL2` model -/

/-- A FAISS flat L2 index: a fixed dimension `d` and the vectors in insertion
order.  `ntotal` of the Python object is `vecs.length`. -/
structure FaissIndex where
  d : Nat
  vecs : List (List Int)
deriving DecidableEq

/-- Squared Euclidean distance (the metric of `IndexFlatL2`). -/
def sqDist (a b : List Int) : Int :=
  ((a.zip b).map (fun p => (p.1 - p.2) ^ 2)).sum

/-- All vectors of the index have the index's dimension (true of every index
FAISS itself can build). -/
def FaissIndex.wf (ix : FaissIndex) : Prop :=
  ∀ v ∈ ix.vecs, v.length = ix.d

instance (ix : FaissIndex) : Decidable ix.wf := by
  unfold FaissIndex.wf; infer_instance

/-- Error text of a FAISS dimension failure. -/
def errFaissDim : String := "faiss: vector dimension mismatch"

/-- `faiss.Index.add`: raises if a vector's length disagrees with the index
dimension, otherwise appends all vectors in order. -/
def FaissIndex.add (ix : FaissIndex) (vs : List (List Int)) :
    Except String FaissIndex :=
  if vs.all (fun v => v.length == ix.d) then
    .ok { ix with vecs := ix.vecs ++ vs }
  else
    .error errFaissDim

/-- Candidate ordering of flat search: ascending squared distance, ties broken
by ascending insertion index. -/
def pairLe (a b : Int × Nat) : Prop :=
  a.1 < b.1 ∨ (a.1 = b.1 ∧ a.2 ≤ b.2)

instance : DecidableRel pairLe := by
  unfold pairLe; infer_instance

instance : IsTotal (Int × Nat) pairLe := by
  constructor
  intro a b
  unfold pairLe
  omega

instance : IsTrans (Int × Nat) pairLe := by
  constructor
  intro a b c hab hbc
  unfold pairLe at *
  omega

/-- The scored candidate list of a flat search: `(squared distance, index)`
for every stored vector. -/
def scoredOf (ix : FaissIndex) (q : List Int) : List (Int × Nat) :=
  (List.range ix.vecs.length).map (fun i => (sqDist q (ix.vecs.getD i []), i))

/-- `faiss.Index.search` restricted to the returned index row: the `k` nearest
stored vectors by ascending squared L2 distance; when `k` exceeds `ntotal`
the row is padded with `-1`, exactly as FAISS does. -/
def FaissIndex.searchIdx (ix : FaissIndex) (q : List Int) (k : Nat) : List Int :=
  ((List.insertionSort pairLe (scoredOf ix q)).take k).map (fun p => (p.2 : Int))
    ++ List.replicate (k - ix.vecs.length) (-1)

/-! ## `VectorDB` state and operations (`src/data/vector_db_connector.py`) -/

/-- In-memory state of a `VectorDB` object: `self.dimension`, `self.index`,
`self.texts`. -/
structure VDB where
  dimension : Nat
  index : FaissIndex
  texts : List String
deriving DecidableEq

/-- The files a `VectorDB` reads or writes, rooted at `db_path`.
Outer `Option`: does the file exist?  Inner `Option`: does loading succeed
(`none` = corrupt, loading raises)?  `writable = false` makes every write
raise `IOError`. -/
structure Disk where
  indexFile : Option (Option FaissIndex)
  dataFile : Option (Option (List String))
  dataPt : Option (Option (List (List Int)))
  textsJson : Option (Option (List String))
  writable : Bool
deriving DecidableEq

/-- `VectorDB.save_database`: writes both artifacts; any exception is caught
and logged inside the method, so the in-memory state is never touched and the
caller never sees an error.  A failed write leaves the disk unchanged. -/
def saveDatabase (s : VDB) (d : Disk) : Disk :=
  if d.writable then
    { d with indexFile := some (some s.index), dataFile := some (some s.texts) }
  else
    d

/-- Error text of a corrupt `data.pt` (raised by `torch.load`). -/
def errDataPt : String := "torch.load: corrupt data.pt"

/-- Error text of a corrupt `texts.json` (raised by `json.load`). -/
def errTextsJson : String := "json.load: corrupt texts.json"

/-- `VectorDB.initialize_database`: fresh empty store of the embedding model's
dimension, then — with no exception handler — seeds the index from `data.pt`
and the texts from `texts.json` when those files exist (a corrupt seed file or
a seed of the wrong dimension raises out of the method), and finally saves. -/
def initDatabase (modelDim : Nat) (d : Disk) : Except String (VDB × Disk) := do
  let ix0 : FaissIndex := { d := modelDim, vecs := [] }
  let ix1 ← match d.dataPt with
    | none => .ok ix0
    | some none => .error errDataPt
    | some (some embs) => ix0.add embs
  let texts1 ← match d.textsJson with
    | none => .ok ([] : List String)
    | some none => .error errTextsJson
    | some (some ts) => .ok ts
  let s : VDB := { dimension := modelDim, index := ix1, texts := texts1 }
  .ok (s, saveDatabase s d)

/-- `VectorDB.load_database`: reads both artifacts; any exception while reading
is caught and the method falls back to `initialize_database` (whose own
exceptions propagate). -/
def loadDatabase (modelDim : Nat) (d : Disk) : Except String (VDB × Disk) :=
  match d.indexFile, d.dataFile with
  | some (some ix), some (some ts) =>
      .ok ({ dimension := ix.d, index := ix, texts := ts }, d)
  | _, _ => initDatabase modelDim d

/-- `VectorDB.__init__` after the model load: load the database when both
persisted artifacts exist, otherwise initialise a fresh one. -/
def openStore (modelDim : Nat) (d : Disk) : Except String (VDB × Disk) :=
  if d.indexFile.isSome && d.dataFile.isSome then
    loadDatabase modelDim d
  else
    initDatabase modelDim d

/-- `VectorDB.add_texts`: embeds the texts, adds the embeddings to the index,
extends `self.texts`, and saves.  The whole body is wrapped in
`try/except Exception`, so no error ever reaches the caller: a FAISS dimension
failure aborts before `texts` is extended, and a save failure is already
swallowed inside `save_database` after the in-memory extension happened. -/
def addTexts (enc : String → List Int) (s : VDB) (d : Disk)
    (ts : List String) : Except String (VDB × Disk) :=
  if ts = [] then .ok (s, d)
  else
    match s.index.add (ts.map enc) with
    | .error _ => .ok (s, d)
    | .ok ix1 =>
        let s1 : VDB := { s with index := ix1, texts := s.texts ++ ts }
        .ok (s1, saveDatabase s1 d)

/-- `VectorDB.search`: empty text list short-circuits to `[]`; a query whose
embedding dimension disagrees with the index raises inside the `try` and is
caught, returning `[]`; otherwise the `min(limit, len(texts))` nearest indices
are fetched from FAISS, those `< len(texts)` are kept and looked up with
Python list indexing. -/
def searchVDB (enc : String → List Int) (s : VDB) (q : String)
    (limit : Nat) : List String :=
  if s.texts = [] then []
  else
    let qe := enc q
    if qe.length ≠ s.index.d then []
    else
      let idxs := s.index.searchIdx qe (min limit s.texts.length)
      (idxs.filter (fun i => i < (s.texts.length : Int))).map (pyGet s.texts)

/-- The squared distances, in returned order, of the entries `searchVDB`
returns (an observer over the same pipeline, used to state the ordering
guarantee). -/
def searchDists (enc : String → List Int) (s : VDB) (q : String)
    (limit : Nat) : List Int :=
  if s.texts = [] then []
  else
    let qe := enc q
    if qe.length ≠ s.index.d then []
    else
      let idxs := s.index.searchIdx qe (min limit s.texts.length)
      (idxs.filter (fun i => i < (s.texts.length : Int))).map
        (fun i => sqDist qe (s.index.vecs.getD i.toNat []))

/-! ## `CSVData` model (`src/data/csv_connector.py`)

A pandas DataFrame whose columns are all textual (`object` dtype) is a list
of column names plus rows; a cell is `none` when it is `NaN`.  Every row
carries the full column list in table order, as a pandas row (`Series`) does. -/

/-- A row: the cells in column order, keyed by column name (`none` = NaN). -/
abbrev CsvRow := List (String × Option String)

/-- A table of textual columns. -/
structure CsvTable where
  cols : List String
  rows : List CsvRow
deriving DecidableEq

/-- `row[field]` combined with the `field in row and not pd.isna(row[field])`
guard of the source: the cell's value when the column exists and is not NaN. -/
def getCell (r : CsvRow) (field : String) : Option String :=
  (r.find? (fun p => p.1 == field)).bind (fun p => p.2)

/-- The name fields tried, in order, by `format_row_as_review`. -/
def nameFields : List String := ["reviewer", "name", "user", "author"]

/-- The review-text fields tried, in order, by `format_row_as_review`. -/
def textFields : List String := ["review", "comment", "feedback", "text", "description"]

/-- First field of `fs` present and non-NaN in `r`. -/
def firstField (r : CsvRow) : List String → Option String
  | [] => none
  | f :: fs => match getCell r f with
    | some v => some v
    | none => firstField r fs

/-- Python `field.replace('_', ' ')`: every underscore becomes a space
(single-character replacement, modelled character-by-character). -/
def undToSpace (s : String) : String :=
  (s.toList.map (fun c => if c == '_' then ' ' else c)).asString

/-- The separator `" | "` of `format_row_as_review`. -/
def sepBar : String := " | "

/-- `CSVData.format_row_as_review`: `Reviewer:` part, `Review:` part, then the
remaining non-NaN fields as `Title-cased name: value`, joined by `" | "`. -/
def formatRow (r : CsvRow) : String :=
  let p1 := match firstField r nameFields with
    | some v => ["Reviewer: " ++ v]
    | none => []
  let p2 := match firstField r textFields with
    | some v => ["Review: " ++ v]
    | none => []
  let rest := r.filterMap (fun p =>
    match p.2 with
    | none => none
    | some v =>
        if p.1 ∈ nameFields ++ textFields then none
        else some (pyTitle (undToSpace p.1) ++ ": " ++ v))
  String.intercalate sepBar (p1 ++ p2 ++ rest)

/-- Does row `r` match query `q` in column `c`
(`data[col].str.contains(query, case=False, na=False)`)? -/
def cellMatches (q : String) (r : CsvRow) (c : String) : Bool :=
  match getCell r c with
  | none => false
  | some s => strContainsCI s q

/-- Does row `r` match query `q` in any textual column? -/
def rowMatches (t : CsvTable) (q : String) (r : CsvRow) : Bool :=
  t.cols.any (cellMatches q r)

/-- The match list `results` of `CSVData.search` before deduplication: for
each string column in order, the formatted matching rows in row order. -/
def csvMatchList (t : CsvTable) (q : String) : List String :=
  (t.cols.map (fun c =>
    ((t.rows.filter (fun r => cellMatches q r c)).map formatRow))).flatten

/-- `CSVData.search`: empty data or no string columns short-circuit to `[]`;
otherwise the column-major match list, deduplicated (`list(set(...))`,
modelled order-deterministically by `dedup`) and truncated to 100. -/
def csvSearch (t : CsvTable) (q : String) : List String :=
  if t.rows = [] then []
  else if t.cols = [] then []
  else (csvMatchList t q).dedup.take 100

/-- Modelled from the spec's words, for comparison with `csvSearch` (claim on
the Keyword Store contract): one formatted string per matching row, matching
case-insensitively over all textual fields, in row order, no cap. -/
def csvSearchSpec (t : CsvTable) (q : String) : List String :=
  (t.rows.filter (rowMatches t q)).map formatRow

/-! ## Evidence fusion (`WorkflowManager._fetch_relevant_data`,
`BaseAgent.get_relevant_data`) -/

/-- The workflow state fields this step reads and writes. -/
structure WFState where
  question : String
  audience : Option String
  data : List String
deriving DecidableEq

/-- The shared fusion step: `list(set(vector_results + csv_results))[:100]`
(`dedup` as the deterministic stand-in for the unordered set). -/
def fuseResults (vres cres : List String) : List String :=
  ((vres ++ cres).dedup).take 100

/-- Python truthiness of the extracted audience: `not audience` is true for a
missing audience and for the empty string. -/
def audienceBlank (a : Option String) : Bool :=
  match a with
  | none => true
  | some s => s = ""

/-- `WorkflowManager._fetch_relevant_data`: with no usable audience, set
`data` to `[]` and return; otherwise query the vector store (limit 50) and
the CSV store and fuse.  The two retrieval backends are passed as functions
so that "is not invoked" is expressible as independence from them. -/
def fetchRelevantData (vsearch csearch : String → List String)
    (st : WFState) : WFState :=
  match st.audience with
  | none => { st with data := [] }
  | some a =>
      if a = "" then { st with data := [] }
      else { st with data := fuseResults (vsearch a) (csearch a) }

/-! ## Concrete fixtures used by witnesses and counterexamples -/

/-- A 4-dimensional embedder (constant, as any fixed embedding suffices). -/
def encA : String → List Int := fun _ => [0, 0, 0, 0]

/-- A 1-dimensional embedder. -/
def encB : String → List Int := fun _ => [0]

/-- A 3-dimensional embedder (stands for a model whose dimension disagrees
with a store whose index was fixed at dimension 4). -/
def enc3 : String → List Int := fun _ => [1, 2, 3]

/-- A concrete query string. -/
def qStr : String := "q"

/-- A concrete text. -/
def txtA : String := "a"

/-- The empty store of dimension 4. -/
def emptyVDB4 : VDB := { dimension := 4, index := { d := 4, vecs := [] }, texts := [] }

/-- A healthy writable directory with no files yet. -/
def diskRW : Disk :=
  { indexFile := none, dataFile := none, dataPt := none, textsJson := none, writable := true }

/-- A directory on which every durable write fails with `IOError`. -/
def diskRO : Disk :=
  { indexFile := none, dataFile := none, dataPt := none, textsJson := none, writable := false }

/-- A directory holding only a seed `data.pt` with one 4-dimensional vector. -/
def diskSeed : Disk :=
  { indexFile := none, dataFile := none, dataPt := some (some [[1, 2, 3, 4]]),
    textsJson := none, writable := true }

/-- A directory holding only a corrupt `data.pt`. -/
def diskBadSeed : Disk :=
  { indexFile := none, dataFile := none, dataPt := some none,
    textsJson := none, writable := true }

/-- A store whose dimension was fixed at 4 by its first add. -/
def vdb4 : VDB :=
  { dimension := 4, index := { d := 4, vecs := [[0, 0, 0, 0]] }, texts := [qStr] }

/-- An incoherent store: the index holds two vectors but only one text is
stored (the situation claim C10 quantifies over). -/
def vdbIncoh : VDB :=
  { dimension := 1, index := { d := 1, vecs := [[0], [5]] }, texts := [txtA] }

/-- A coherent two-entry store of dimension 1 (vector 0 ↔ `"a"`, vector 5 ↔
`"q"`). -/
def vdbTwo : VDB :=
  { dimension := 1, index := { d := 1, vecs := [[0], [5]] }, texts := [txtA, qStr] }

/-- The query `"abc"`. -/
def qAbc : String := "abc"

/-- A cell value `"abc"`. -/
def cellAbc : Option String := some qAbc

/-- A table with one textual column and two identical matching rows. -/
def tbl0 : CsvTable :=
  { cols := ["review"], rows := [[("review", cellAbc)], [("review", cellAbc)]] }

/-- A concrete workflow state with a blank (empty-string) audience. -/
def stBlank : WFState := { question := qStr, audience := some blankStr, data := [txtA] }

/-! ## Helper lemmas -/

lemma fuseResults_length_le (v c : List String) : (fuseResults v c).length ≤ 100 := by
  unfold fuseResults
  simp [List.length_take]

lemma fuseResults_nodup (v c : List String) : (fuseResults v c).Nodup :=
  List.Nodup.sublist (List.take_sublist _ _) (List.nodup_dedup _)

lemma getD_mem_of_lt (xs : List String) (n : Nat) (h : n < xs.length) :
    xs.getD n blankStr ∈ xs := by
  induction xs generalizing n with
  | nil => simp at h
  | cons a l ih =>
    cases n with
    | zero => simp
    | succ m =>
      have hm : m < l.length := by simpa [Nat.succ_lt_succ_iff] using h
      simpa using Or.inr (ih m hm)

/-! ## Claim theorems -/

/-- C3.  Evidence fusion cap and deduplication: for every audience and any
behaviour of the two retrieval backends, the evidence list `_fetch_relevant_data`
stores in the state has at most 100 (`max_evidence`) entries and contains no
two equal strings. -/
theorem fusion_cap_and_dedup (vsearch csearch : String → List String)
    (st : WFState) :
    (fetchRelevantData vsearch csearch st).data.length ≤ 100 ∧
    (fetchRelevantData vsearch csearch st).data.Nodup := by
  unfold fetchRelevantData
  cases st.audience with
  | none => simp
  | some a =>
    by_cases ha : a = blankStr
    · simp [ha, blankStr]
    · have ha' : ¬ a = "" := ha
      simp only [ha', if_false]
      exact ⟨fuseResults_length_le _ _, fuseResults_nodup _ _⟩

/-- C7.  Empty-audience short circuit: with a blank audience (missing or the
empty string), `_fetch_relevant_data` stores an empty evidence list, and the
outcome is independent of the vector-search and keyword-search backends (so
neither the Embedder nor the Keyword Store is consulted). -/
theorem empty_audience_short_circuit
    (vs cs vs' cs' : String → List String) (st : WFState)
    (h : audienceBlank st.audience = true) :
    (fetchRelevantData vs cs st).data = [] ∧
    fetchRelevantData vs cs st = fetchRelevantData vs' cs' st := by
  rcases hsa : st.audience with _ | a
  · simp [fetchRelevantData, hsa]
  · have ha : a = "" := by
      unfold audienceBlank at h
      rw [hsa] at h
      simpa using h
    simp [fetchRelevantData, hsa, ha]

/-- Witness for C7 at the concrete state `stBlank` (audience `""`). -/
theorem empty_audience_short_circuit_witness :
    (fetchRelevantData (fun _ => [txtA]) (fun _ => [qStr]) stBlank).data = [] ∧
    fetchRelevantData (fun _ => [txtA]) (fun _ => [qStr]) stBlank =
      fetchRelevantData (fun _ => [qStr, txtA]) (fun _ => []) stBlank :=
  empty_audience_short_circuit _ _ _ _ stBlank (by decide)

/-- C2 counterexample.  The claim demands rollback: if the durable write at
the end of `add` fails with `IOError`, the in-memory state must equal the
pre-call state.  On the store `emptyVDB4` (texts `[]`) with the unwritable
directory `diskRO`, `add_texts ["a"]` returns normally and the in-memory
state holds one vector and the text `"a"` — not the pre-call empty state. -/
theorem add_rollback_counterexample :
    addTexts encA emptyVDB4 diskRO [txtA] =
      .ok ({ dimension := 4, index := { d := 4, vecs := [[0, 0, 0, 0]] },
             texts := [txtA] }, diskRO) ∧
    ({ dimension := 4, index := { d := 4, vecs := [[0, 0, 0, 0]] },
       texts := [txtA] } : VDB) ≠ emptyVDB4 := by
  exact ⟨rfl, by decide⟩

/-- C2 amended.  When the durable write fails, `add_texts` still returns
normally (the `IOError` is caught and logged inside `save_database`): the
in-memory state retains the appended embeddings and texts — there is no
rollback — and the disk is left unchanged. -/
theorem add_save_failure_keeps_memory (enc : String → List Int) (s : VDB)
    (d : Disk) (ts : List String) (hw : d.writable = false) (hne : ts ≠ [])
    (hdim : ∀ t ∈ ts, (enc t).length = s.index.d) :
    addTexts enc s d ts =
      .ok ({ s with
             index := { s.index with vecs := s.index.vecs ++ ts.map enc },
             texts := s.texts ++ ts }, d) := by
  have hall : ((ts.map enc).all fun v => v.length == s.index.d) = true := by
    rw [List.all_eq_true]
    intro v hv
    rcases List.mem_map.mp hv with ⟨t, ht, rfl⟩
    exact beq_iff_eq.mpr (hdim t ht)
  unfold addTexts FaissIndex.add
  rw [if_neg hne, hall]
  simp [saveDatabase, hw]

/-- Witness for the amended C2 at the concrete input of the counterexample. -/
theorem add_save_failure_keeps_memory_witness :
    addTexts encA emptyVDB4 diskRO [txtA] =
      .ok ({ emptyVDB4 with
             index := { emptyVDB4.index with
                        vecs := emptyVDB4.index.vecs ++ List.map encA [txtA] },
             texts := emptyVDB4.texts ++ [txtA] }, diskRO) :=
  add_save_failure_keeps_memory encA emptyVDB4 diskRO [txtA] rfl (by decide)
    (by decide)

/-- C4 counterexample.  The claim demands that `add` with a vector of the
wrong length fail with a `DimensionMismatch` error.  On the store `vdb4`
(dimension fixed at 4) with a 3-dimensional embedding, `add_texts` returns
normally (`.ok`) with the store at its prior size: the FAISS dimension
exception is caught by the method's `except` block, so no error reaches the
caller. -/
theorem add_dim_mismatch_counterexample :
    addTexts enc3 vdb4 diskRW [txtA] = .ok (vdb4, diskRW) := rfl

/-- C4 amended.  An `add` whose embeddings disagree with the store's fixed
dimension leaves the store (and the disk) exactly at its prior state, but the
dimension error is caught and logged rather than raised: `add_texts` returns
normally. -/
theorem add_dim_mismatch_swallowed (enc : String → List Int) (s : VDB)
    (d : Disk) (ts : List String) (hne : ts ≠ [])
    (hbad : ∃ t ∈ ts, (enc t).length ≠ s.index.d) :
    addTexts enc s d ts = .ok (s, d) := by
  have hall : ((ts.map enc).all fun v => v.length == s.index.d) = false := by
    rcases hbad with ⟨t, ht, hlen⟩
    rw [List.all_eq_false]
    exact ⟨enc t, List.mem_map_of_mem _ ht, by simpa using hlen⟩
  unfold addTexts FaissIndex.add
  rw [if_neg hne, hall]
  simp

/-- Witness for the amended C4 at the concrete input of the counterexample. -/
theorem add_dim_mismatch_swallowed_witness :
    addTexts enc3 vdb4 diskRW [txtA] = .ok (vdb4, diskRW) :=
  add_dim_mismatch_swallowed enc3 vdb4 diskRW [txtA] (by decide) (by decide)


/-- The store `initialize_database` builds on a directory without seed files. -/
def freshVDB (m : Nat) : VDB :=
  { dimension := m, index := { d := m, vecs := [] }, texts := [] }

lemma initDatabase_clean (m : Nat) (d : Disk) (hdp : d.dataPt = none)
    (htj : d.textsJson = none) :
    initDatabase m d = .ok (freshVDB m, saveDatabase (freshVDB m) d) := by
  unfold initDatabase
  rw [hdp, htj]
  rfl

lemma addTexts_coherent (enc : String → List Int) (s : VDB) (d : Disk)
    (ts : List String) (s' : VDB) (d' : Disk)
    (hco : s.index.vecs.length = s.texts.length)
    (hadd : addTexts enc s d ts = .ok (s', d')) :
    s'.index.vecs.length = s'.texts.length := by
  unfold addTexts at hadd
  by_cases hts : ts = []
  · rw [if_pos hts] at hadd
    simp only [Except.ok.injEq, Prod.mk.injEq] at hadd
    obtain ⟨rfl, rfl⟩ := hadd
    exact hco
  · rw [if_neg hts] at hadd
    unfold FaissIndex.add at hadd
    by_cases hall : ((ts.map enc).all fun v => v.length == s.index.d) = true
    · rw [if_pos hall] at hadd
      simp only [Except.ok.injEq, Prod.mk.injEq] at hadd
      obtain ⟨rfl, rfl⟩ := hadd
      simp [List.length_append, hco]
    · rw [if_neg hall] at hadd
      simp only [Except.ok.injEq, Prod.mk.injEq] at hadd
      obtain ⟨rfl, rfl⟩ := hadd
      exact hco

lemma openStore_coherent (modelDim : Nat) (d : Disk) (s' : VDB) (d' : Disk)
    (hdp : d.dataPt = none) (htj : d.textsJson = none)
    (hcoh : ∀ ix tx, d.indexFile = some (some ix) → d.dataFile = some (some tx) →
      ix.vecs.length = tx.length)
    (hopen : openStore modelDim d = .ok (s', d')) :
    s'.index.vecs.length = s'.texts.length := by
  have hinit := initDatabase_clean modelDim d hdp htj
  unfold openStore at hopen
  rcases hfi : d.indexFile with _ | oi <;> rcases hfd : d.dataFile with _ | od <;>
    rw [hfi, hfd] at hopen
  · rw [hinit] at hopen
    simp only [Option.isSome_none, Bool.false_and, Bool.false_eq_true, if_false,
      Except.ok.injEq, Prod.mk.injEq] at hopen
    obtain ⟨rfl, rfl⟩ := hopen
    rfl
  · rw [hinit] at hopen
    simp only [Option.isSome_none, Bool.false_and, Bool.false_eq_true, if_false,
      Except.ok.injEq, Prod.mk.injEq] at hopen
    obtain ⟨rfl, rfl⟩ := hopen
    rfl
  · rw [hinit] at hopen
    simp only [Option.isSome_none, Option.isSome_some, Bool.and_false,
      Bool.false_eq_true, if_false, Except.ok.injEq, Prod.mk.injEq] at hopen
    obtain ⟨rfl, rfl⟩ := hopen
    rfl
  · simp only [Option.isSome_some, Bool.and_self, if_true] at hopen
    unfold loadDatabase at hopen
    rw [hfi, hfd] at hopen
    rcases oi with _ | ix
    · rw [hinit] at hopen
      simp only [Except.ok.injEq, Prod.mk.injEq] at hopen
      obtain ⟨rfl, rfl⟩ := hopen
      rfl
    · rcases od with _ | tx
      · rw [hinit] at hopen
        simp only [Except.ok.injEq, Prod.mk.injEq] at hopen
        obtain ⟨rfl, rfl⟩ := hopen
        rfl
      · simp only [Except.ok.injEq, Prod.mk.injEq] at hopen
        obtain ⟨rfl, rfl⟩ := hopen
        exact hcoh ix tx hfi hfd

/-- C1 counterexample.  The claim asserts coherence after every load (open)
"regardless of which files existed on disk at load time".  Opening `diskSeed`
— no persisted index or data file, but a stray `data.pt` holding one
4-dimensional embedding — succeeds and yields a store whose ANN index holds
1 vector while the texts list holds 0 entries. -/
theorem coherence_counterexample :
    (openStore 4 diskSeed).map
      (fun p => (p.1.index.vecs.length, p.1.texts.length)) = .ok (1, 0) := rfl

/-- C1 amended.  Coherence (`len(vectors) == len(texts)`) is preserved by
every `add`, and holds after an open provided the directory carries no seed
files (`data.pt`, `texts.json`) and its persisted artifacts, when both
loadable, are mutually coherent.  (An open that consumes a seed file of
mismatched cardinality, as in the counterexample, breaks it.) -/
theorem coherence_add_and_load (modelDim : Nat) (enc : String → List Int)
    (s : VDB) (d : Disk) (ts : List String) (s' : VDB) (d' : Disk) :
    (s.index.vecs.length = s.texts.length →
      addTexts enc s d ts = .ok (s', d') →
      s'.index.vecs.length = s'.texts.length) ∧
    (d.dataPt = none → d.textsJson = none →
      (∀ ix tx, d.indexFile = some (some ix) → d.dataFile = some (some tx) →
        ix.vecs.length = tx.length) →
      openStore modelDim d = .ok (s', d') →
      s'.index.vecs.length = s'.texts.length) :=
  ⟨fun hco hadd => addTexts_coherent enc s d ts s' d' hco hadd,
   fun hdp htj hcoh hopen => openStore_coherent modelDim d s' d' hdp htj hcoh hopen⟩

/-- Witness for the amended C1: a concrete `add` of one text to the empty
store preserves coherence. -/
theorem coherence_add_and_load_witness :
    ({ dimension := 4, index := { d := 4, vecs := [[0, 0, 0, 0]] },
       texts := [txtA] } : VDB).index.vecs.length =
    ({ dimension := 4, index := { d := 4, vecs := [[0, 0, 0, 0]] },
       texts := [txtA] } : VDB).texts.length :=
  (coherence_add_and_load 4 encA emptyVDB4 diskRW [txtA]
    { dimension := 4, index := { d := 4, vecs := [[0, 0, 0, 0]] },
      texts := [txtA] }
    { indexFile := some (some { d := 4, vecs := [[0, 0, 0, 0]] }),
      dataFile := some (some [txtA]), dataPt := none, textsJson := none,
      writable := true }).1 rfl rfl

lemma initDatabase_ok_of_good_seeds (m : Nat) (d : Disk)
    (hpt : d.dataPt = none ∨
      ∃ embs, d.dataPt = some (some embs) ∧ ∀ v ∈ embs, v.length = m)
    (htj : d.textsJson = none ∨ ∃ ts, d.textsJson = some (some ts)) :
    ∃ r, initDatabase m d = .ok r := by
  unfold initDatabase FaissIndex.add
  rcases hpt with h | ⟨embs, h, hlen⟩ <;>
    rcases htj with h2 | ⟨ts, h2⟩ <;> rw [h, h2]
  · exact ⟨_, rfl⟩
  · exact ⟨_, rfl⟩
  · have hall : (embs.all fun v => v.length == m) = true := by
      rw [List.all_eq_true]
      intro v hv
      exact beq_iff_eq.mpr (hlen v hv)
    simp only [hall, if_true]
    exact ⟨_, rfl⟩
  · have hall : (embs.all fun v => v.length == m) = true := by
      rw [List.all_eq_true]
      intro v hv
      exact beq_iff_eq.mpr (hlen v hv)
    simp only [hall, if_true]
    exact ⟨_, rfl⟩

/-- C8 counterexample.  The claim says open never propagates a load error for
any on-disk state.  On `diskBadSeed` (no persisted artifacts, a corrupt
`data.pt`), open takes the fresh-initialisation path, `torch.load` raises,
and — `initialize_database` having no exception handler — the error
propagates out of the constructor. -/
theorem open_fail_soft_counterexample :
    openStore 4 diskBadSeed = .error errDataPt := rfl

/-- C8 amended.  Opening is fail-soft with respect to the two persisted
artifacts: for every disk state whose optional seed files are absent or
loadable with the model's dimension, open returns a usable store — a missing
or corrupt index/data artifact only triggers fallback to fresh
initialisation.  (A corrupt seed file, as in the counterexample, still
propagates.) -/
theorem open_fail_soft (m : Nat) (d : Disk)
    (hpt : d.dataPt = none ∨
      ∃ embs, d.dataPt = some (some embs) ∧ ∀ v ∈ embs, v.length = m)
    (htj : d.textsJson = none ∨ ∃ ts, d.textsJson = some (some ts)) :
    ∃ r, openStore m d = .ok r := by
  obtain ⟨r, hinit⟩ := initDatabase_ok_of_good_seeds m d hpt htj
  unfold openStore
  rcases hfi : d.indexFile with _ | oi <;> rcases hfd : d.dataFile with _ | od
  · simp only [hfi, hfd, Option.isSome_none, Bool.false_and, Bool.false_eq_true,
      if_false]
    exact ⟨r, hinit⟩
  · simp only [hfi, hfd, Option.isSome_none, Option.isSome_some, Bool.false_and,
      Bool.false_eq_true, if_false]
    exact ⟨r, hinit⟩
  · simp only [hfi, hfd, Option.isSome_none, Option.isSome_some, Bool.and_false,
      Bool.false_eq_true, if_false]
    exact ⟨r, hinit⟩
  · rcases oi with _ | ix
    · simp only [hfi, hfd, Option.isSome_some, Bool.and_self, if_true]
      unfold loadDatabase
      rw [hfi, hfd]
      exact ⟨r, hinit⟩
    · rcases od with _ | tx
      · simp only [hfi, hfd, Option.isSome_some, Bool.and_self, if_true]
        unfold loadDatabase
        rw [hfi, hfd]
        exact ⟨r, hinit⟩
      · simp only [hfi, hfd, Option.isSome_some, Bool.and_self, if_true]
        unfold loadDatabase
        rw [hfi, hfd]
        exact ⟨_, rfl⟩

/-- Witness for the amended C8: opening a fresh writable directory yields a
store. -/
theorem open_fail_soft_witness : ∃ r, openStore 4 diskRW = .ok r :=
  open_fail_soft 4 diskRW (Or.inl rfl) (Or.inl rfl)

/-- C9.  Persistence round-trip: saving any store to a writable directory and
then opening that directory loads a store with identical `texts` (same order
and content) and identical `search` results for every query and limit. -/
theorem save_load_round_trip (m : Nat) (enc : String → List Int) (s : VDB)
    (d : Disk) (q : String) (limit : Nat) (hw : d.writable = true) :
    ∃ s2, openStore m (saveDatabase s d) = .ok (s2, saveDatabase s d) ∧
      s2.texts = s.texts ∧
      searchVDB enc s2 q limit = searchVDB enc s q limit := by
  obtain ⟨dim, ix, tx⟩ := s
  refine ⟨{ dimension := ix.d, index := ix, texts := tx }, ?_, rfl, rfl⟩
  simp [openStore, saveDatabase, hw, loadDatabase]

/-- Witness for C9 at a concrete two-entry store. -/
theorem save_load_round_trip_witness :
    ∃ s2, openStore 1 (saveDatabase vdbTwo diskRW) =
        .ok (s2, saveDatabase vdbTwo diskRW) ∧
      s2.texts = vdbTwo.texts ∧
      searchVDB encB s2 qStr 50 = searchVDB encB vdbTwo qStr 50 :=
  save_load_round_trip 1 encB vdbTwo diskRW qStr 50 rfl

lemma scoredOf_length (ix : FaissIndex) (qe : List Int) :
    (scoredOf ix qe).length = ix.vecs.length := by
  simp [scoredOf]

lemma mem_scoredOf_elim (ix : FaissIndex) (qe : List Int) (p : Int × Nat)
    (hp : p ∈ scoredOf ix qe) :
    p.2 < ix.vecs.length ∧ p.1 = sqDist qe (ix.vecs.getD p.2 []) := by
  unfold scoredOf at hp
  rcases List.mem_map.mp hp with ⟨i, hi, rfl⟩
  exact ⟨List.mem_range.mp hi, rfl⟩

/-- C10.  Implicit index-bounds guard of `search`: whatever the store state —
coherent or not — every string `search` returns is one of the stored texts;
in particular no out-of-range access of `self.texts` is possible (the model
is total: the guarded comprehension either resolves an index into the texts
list or drops it). -/
theorem search_in_bounds (enc : String → List Int) (s : VDB) (q : String)
    (limit : Nat) (x : String) (hx : x ∈ searchVDB enc s q limit) :
    x ∈ s.texts := by
  unfold searchVDB at hx
  by_cases h0 : s.texts = []
  · rw [if_pos h0] at hx
    simp at hx
  · rw [if_neg h0] at hx
    by_cases hd : (enc q).length ≠ s.index.d
    · rw [if_pos hd] at hx
      simp at hx
    · rw [if_neg hd] at hx
      rcases List.mem_map.mp hx with ⟨i, hi, rfl⟩
      rw [List.mem_filter] at hi
      obtain ⟨hmem, hlt⟩ := hi
      have hlt' : i < (s.texts.length : Int) := by simpa using hlt
      unfold FaissIndex.searchIdx at hmem
      rcases List.mem_append.mp hmem with hmem | hmem
      · rcases List.mem_map.mp hmem with ⟨p, hp, rfl⟩
        have hp0 : (0 : Int) ≤ (p.2 : Int) := Int.natCast_nonneg _
        unfold pyGet
        rw [if_pos hp0]
        have hcast : ((p.2 : Int)).toNat = p.2 := by simp
        rw [hcast]
        apply getD_mem_of_lt
        exact_mod_cast hlt'
      · have hi1 : i = -1 := List.eq_of_mem_replicate hmem
        subst hi1
        have hlen : 0 < s.texts.length := List.length_pos.mpr h0
        unfold pyGet
        rw [if_neg (by decide)]
        apply getD_mem_of_lt
        have : ((-(-1 : Int))).toNat = 1 := rfl
        rw [this]
        omega

/-- Witness for C10 on a deliberately incoherent store (`vdbIncoh`: two
indexed vectors, one stored text): the concrete search still returns only
stored texts. -/
theorem search_in_bounds_witness : txtA ∈ vdbIncoh.texts :=
  search_in_bounds encB vdbIncoh qStr 7 txtA (by decide)

lemma searchIdx_filter_eq (ix : FaissIndex) (qe : List Int) (n : Nat)
    (hco : ix.vecs.length = n) :
    (ix.searchIdx qe n).filter (fun i => i < (n : Int)) =
      ((List.insertionSort pairLe (scoredOf ix qe)).take n).map
        (fun p => (p.2 : Int)) := by
  unfold FaissIndex.searchIdx
  have hrep : n - ix.vecs.length = 0 := by omega
  rw [hrep]
  simp only [List.replicate_zero, List.append_nil]
  apply List.filter_eq_self.mpr
  intro a ha
  rcases List.mem_map.mp ha with ⟨p, hp, rfl⟩
  have hmem : p ∈ scoredOf ix qe :=
    (List.perm_insertionSort pairLe _).mem_iff.mp (List.take_subset _ _ hp)
  have hlt := (mem_scoredOf_elim ix qe p hmem).1
  have hlt2 : (p.2 : Int) < (n : Int) := by exact_mod_cast hco ▸ hlt
  simpa using hlt2

/-- C5.  Search boundary behaviour on a coherent store whose embedder has the
index's dimension: an empty store yields `[]` (and the model is total, so no
error is ever raised); when the requested limit is at least the store's size
the result holds exactly `size()` entries; and the squared L2 distances along
the returned order are ascending. -/
theorem search_boundary (enc : String → List Int) (s : VDB) (q : String)
    (limit : Nat) (hco : s.index.vecs.length = s.texts.length)
    (hdim : (enc q).length = s.index.d) (hk : s.texts.length ≤ limit) :
    (s.texts = [] → searchVDB enc s q limit = []) ∧
    (searchVDB enc s q limit).length = s.texts.length ∧
    List.Sorted (fun a b => a ≤ b) (searchDists enc s q limit) := by
  by_cases h0 : s.texts = []
  · refine ⟨fun _ => ?_, ?_, ?_⟩ <;> simp [searchVDB, searchDists, h0]
  · have hmin : min limit s.texts.length = s.texts.length := Nat.min_eq_right hk
    have hfil := searchIdx_filter_eq s.index (enc q) s.texts.length hco
    have hlen :
        ((List.insertionSort pairLe (scoredOf s.index (enc q))).take
          s.texts.length).length = s.texts.length := by
      rw [List.length_take, (List.perm_insertionSort pairLe _).length_eq,
        scoredOf_length, hco]
      omega
    have hfst : ∀ p ∈ (List.insertionSort pairLe
        (scoredOf s.index (enc q))).take s.texts.length,
        p.1 = sqDist (enc q) (s.index.vecs.getD p.2 []) := by
      intro p hp
      exact (mem_scoredOf_elim s.index (enc q) p
        ((List.perm_insertionSort pairLe _).mem_iff.mp
          (List.take_subset _ _ hp))).2
    have hsorted : List.Pairwise pairLe ((List.insertionSort pairLe
        (scoredOf s.index (enc q))).take s.texts.length) :=
      List.Pairwise.sublist (List.take_sublist _ _)
        (List.sorted_insertionSort pairLe _)
    refine ⟨fun h => absurd h h0, ?_, ?_⟩
    · simp only [searchVDB]
      rw [if_neg h0, if_neg (by simp [hdim]), hmin, hfil]
      simpa using hlen
    · simp only [searchDists]
      rw [if_neg h0, if_neg (by simp [hdim]), hmin, hfil, List.map_map]
      rw [List.Sorted, List.pairwise_map]
      refine hsorted.imp_of_mem ?_
      intro a b ha hb hr
      have h1 : a.1 ≤ b.1 := by
        rcases hr with h | ⟨h, _⟩ <;> omega
      have ha1 := hfst a ha
      have hb1 := hfst b hb
      simp only [Function.comp]
      have hca : ((a.2 : Int)).toNat = a.2 := by simp
      have hcb : ((b.2 : Int)).toNat = b.2 := by simp
      rw [hca, hcb, ← ha1, ← hb1]
      exact h1

/-- Witness for C5 at the coherent two-entry store `vdbTwo` with limit 50. -/
theorem search_boundary_witness :
    (vdbTwo.texts = [] → searchVDB encB vdbTwo qStr 50 = []) ∧
    (searchVDB encB vdbTwo qStr 50).length = vdbTwo.texts.length ∧
    List.Sorted (fun a b => a ≤ b) (searchDists encB vdbTwo qStr 50) :=
  search_boundary encB vdbTwo qStr 50 rfl rfl (by decide)

/-- C6 counterexample.  The claim says the Keyword Store returns one
formatted string per matching row, in row order.  On `tbl0` — two matching
rows that format to the same string — `CSVData.search` returns a single
string (the `list(set(...))` deduplication merges them), not one per row:
the code's result differs from the claimed per-row, row-ordered result. -/
theorem keyword_search_counterexample :
    csvSearch tbl0 qAbc ≠ csvSearchSpec tbl0 qAbc := by decide

/-- C6 amended.  `CSVData.search` returns, in unspecified order, at most one
occurrence of each formatted string of a matching row (case-insensitive
substring over all textual fields), truncated to 100 entries; and whenever
the deduplicated match list fits the cap, every matching row's formatted
string does appear. -/
theorem keyword_search_amended (t : CsvTable) (q : String) :
    (csvSearch t q).Nodup ∧
    (csvSearch t q).length ≤ 100 ∧
    (∀ x ∈ csvSearch t q,
      ∃ r ∈ t.rows, rowMatches t q r = true ∧ x = formatRow r) ∧
    ((csvMatchList t q).dedup.length ≤ 100 →
      ∀ r ∈ t.rows, rowMatches t q r = true → formatRow r ∈ csvSearch t q) := by
  refine ⟨?_, ?_, ?_, ?_⟩
  · unfold csvSearch
    split
    · exact List.nodup_nil
    · split
      · exact List.nodup_nil
      · exact List.Nodup.sublist (List.take_sublist _ _) (List.nodup_dedup _)
  · unfold csvSearch
    split
    · simp
    · split
      · simp
      · simp [List.length_take]
  · intro x hx
    unfold csvSearch at hx
    by_cases h1 : t.rows = []
    · rw [if_pos h1] at hx
      simp at hx
    · rw [if_neg h1] at hx
      by_cases h2 : t.cols = []
      · rw [if_pos h2] at hx
        simp at hx
      · rw [if_neg h2] at hx
        have hx2 : x ∈ (csvMatchList t q).dedup := List.take_subset _ _ hx
        rw [List.mem_dedup] at hx2
        unfold csvMatchList at hx2
        rcases List.mem_flatten.mp hx2 with ⟨blk, hblk, hxblk⟩
        rcases List.mem_map.mp hblk with ⟨c, hc, rfl⟩
        rcases List.mem_map.mp hxblk with ⟨r, hr, rfl⟩
        rw [List.mem_filter] at hr
        obtain ⟨hrmem, hmatch⟩ := hr
        refine ⟨r, hrmem, ?_, rfl⟩
        unfold rowMatches
        rw [List.any_eq_true]
        exact ⟨c, hc, hmatch⟩
  · intro hlen r hr hmatch
    unfold rowMatches at hmatch
    rw [List.any_eq_true] at hmatch
    obtain ⟨c, hc, hcm⟩ := hmatch
    have hne1 : t.rows ≠ [] := by
      intro h
      rw [h] at hr
      simp at hr
    have hne2 : t.cols ≠ [] := by
      intro h
      rw [h] at hc
      simp at hc
    have hmem : formatRow r ∈ csvMatchList t q := by
      unfold csvMatchList
      rw [List.mem_flatten]
      refine ⟨(t.rows.filter (fun r => cellMatches q r c)).map formatRow,
        List.mem_map_of_mem _ hc, ?_⟩
      exact List.mem_map_of_mem _ (List.mem_filter.mpr ⟨hr, hcm⟩)
    unfold csvSearch
    rw [if_neg hne1, if_neg hne2, List.take_of_length_le hlen, List.mem_dedup]
    exact hmem

/-- Witness for the amended C6 at the table of the counterexample. -/
theorem keyword_search_amended_witness :
    (csvSearch tbl0 qAbc).Nodup ∧
    (csvSearch tbl0 qAbc).length ≤ 100 ∧
    (∃ r ∈ tbl0.rows, rowMatches tbl0 qAbc r = true ∧
      formatRow [("review", cellAbc)] = formatRow r) ∧
    formatRow [("review", cellAbc)] ∈ csvSearch tbl0 qAbc := by
  obtain ⟨h1, h2, h3, h4⟩ := keyword_search_amended tbl0 qAbc
  refine ⟨h1, h2, ?_, ?_⟩
  · exact h3 (formatRow [("review", cellAbc)]) (by decide)
  · exact h4 (by decide) [("review", cellAbc)] (by decide) (by decide)
